import Mathlib

/-!
Shallow embedding of the ThaneHunt BLE HID keyboard firmware
(components app_hid, app_ble, app_sleep, app_button), together with
theorems settling the behavioural claims about it.

Machine integers (`uint8_t`, `uint32_t`) are modelled as `Nat` with
explicit truncation (`% 256`, masks) exactly where the C code casts or
where overflow could occur.  The global mutable state of each module is
made explicit: every C function becomes a Lean function from the old
state (plus the results of external collaborator calls, passed in as
oracles) to the new state, the return value, and — where a claim talks
about which collaborator calls happen — a trace of emitted effects.
-/

namespace AppHid

/-- `KEY_PRESS_MAX` from app_ble.h: maximum number of simultaneously
pressed non-control keys. -/
def KEY_PRESS_MAX : Nat := 6

/-- `KEY_CTRL_CODE_MIN` from app_hid.c. -/
def KEY_CTRL_CODE_MIN : Nat := 224

/-- `KEY_CTRL_CODE_MAX` from app_hid.c. -/
def KEY_CTRL_CODE_MAX : Nat := 231

/-- Zephyr error number `EBUSY` (returned negated by the C code). -/
def EBUSY : Int := 16

/-- `struct keyboard_state` from app_hid.c: a control-key bitmask byte
plus `KEY_PRESS_MAX` key-slot bytes. -/
structure keyboard_state where
  ctrl_keys_state : Nat
  keys_state : List Nat
  deriving Repr, DecidableEq

/-- The zero-initialised global `hid_keyboard_state`. -/
def init_keyboard_state : keyboard_state :=
  { ctrl_keys_state := 0, keys_state := List.replicate KEY_PRESS_MAX 0 }

/-- Well-formedness of a keyboard state: every byte is a `uint8_t` value
and the key array has its fixed length. -/
def keyboard_state_wf (st : keyboard_state) : Prop :=
  st.ctrl_keys_state < 256 ∧ st.keys_state.length = KEY_PRESS_MAX ∧
    ∀ x ∈ st.keys_state, x < 256

instance (st : keyboard_state) : Decidable (keyboard_state_wf st) := by
  unfold keyboard_state_wf; infer_instance

/-- `button_ctrl_code` from app_hid.c: bitmask of a control key
(codes 224..231), `0` for any other code.  The `% 256` is the
`(uint8_t)` cast in the source (never truncating here, since the shift
amount is at most 7). -/
def button_ctrl_code (key : Nat) : Nat :=
  if KEY_CTRL_CODE_MIN ≤ key ∧ key ≤ KEY_CTRL_CODE_MAX then
    (1 <<< (key - KEY_CTRL_CODE_MIN)) % 256
  else 0

/-- Helper for `hid_kbd_state_key_set`: store `key` in the first
zero slot, scanning left to right; `none` when every slot is busy.
This is the `for` loop of the C function. -/
def set_first_zero : List Nat → Nat → Option (List Nat)
  | [], _ => none
  | x :: xs, key =>
    if x = 0 then some (key :: xs)
    else match set_first_zero xs key with
      | some ys => some (x :: ys)
      | none => none

/-- Helper for `hid_kbd_state_key_clear`: zero the first slot holding
`key`, scanning left to right; unchanged when no slot holds it. -/
def clear_first_eq : List Nat → Nat → List Nat
  | [], _ => []
  | x :: xs, key =>
    if x = key then 0 :: xs else x :: clear_first_eq xs key

/-- `hid_kbd_state_key_set` from app_hid.c, with the global state made
explicit: returns the new state and the `int` result (`0` or `-EBUSY`). -/
def hid_kbd_state_key_set (st : keyboard_state) (key : Nat) :
    keyboard_state × Int :=
  let ctrl_mask := button_ctrl_code key
  if ctrl_mask ≠ 0 then
    ({ st with ctrl_keys_state := st.ctrl_keys_state ||| ctrl_mask }, 0)
  else
    match set_first_zero st.keys_state key with
    | some ks => ({ st with keys_state := ks }, 0)
    | none => (st, -EBUSY)

/-- `hid_kbd_state_key_clear` from app_hid.c, with the global state made
explicit.  `~ctrl_mask` on a `uint8_t` is `255 ^^^ ctrl_mask`.  Note the
C function returns `0` on the key-not-found path as well. -/
def hid_kbd_state_key_clear (st : keyboard_state) (key : Nat) :
    keyboard_state × Int :=
  let ctrl_mask := button_ctrl_code key
  if ctrl_mask ≠ 0 then
    ({ st with ctrl_keys_state := st.ctrl_keys_state &&& (255 ^^^ ctrl_mask) }, 0)
  else
    ({ st with keys_state := clear_first_eq st.keys_state key }, 0)

/-- The 8 report bytes assembled by `key_report_con_send`:
`data[0] = ctrl_keys_state`, `data[1] = 0`, `data[2..7] = keys_state`. -/
def report_bytes (st : keyboard_state) : List Nat :=
  st.ctrl_keys_state :: 0 :: st.keys_state

/-- The key-setting loop of `hid_buttons_press` from app_hid.c: apply
`hid_kbd_state_key_set` to each key in order, stopping at (and
returning) the first nonzero error; `0` when every key was set.
(The subsequent `key_report_send` does not modify the keyboard state.) -/
def hid_buttons_press_keys : keyboard_state → List Nat → keyboard_state × Int
  | st, [] => (st, 0)
  | st, k :: ks =>
    let r := hid_kbd_state_key_set st k
    if r.2 ≠ 0 then r else hid_buttons_press_keys r.1 ks

/-- A press or release event driving the keyboard state machine. -/
inductive KbdEvent where
  | press (key : Nat)
  | release (key : Nat)
  deriving Repr, DecidableEq

/-- Apply one event to the keyboard state (ignoring the returned error,
as the state left behind is what the invariants are about). -/
def apply_event (st : keyboard_state) : KbdEvent → keyboard_state
  | .press k => (hid_kbd_state_key_set st k).1
  | .release k => (hid_kbd_state_key_clear st k).1

/-- Run a sequence of events from a given state. -/
def run_events_from (st : keyboard_state) (es : List KbdEvent) : keyboard_state :=
  es.foldl apply_event st

/-- Run a sequence of events from the all-zero initial state. -/
def run_events (es : List KbdEvent) : keyboard_state :=
  run_events_from init_keyboard_state es

end AppHid

namespace AppHid

/-! ### Basic facts about `button_ctrl_code` and the slot helpers -/

lemma button_ctrl_code_of_ctrl {key : Nat} (h1 : KEY_CTRL_CODE_MIN ≤ key)
    (h2 : key ≤ KEY_CTRL_CODE_MAX) :
    button_ctrl_code key = 2 ^ (key - KEY_CTRL_CODE_MIN) := by
  unfold button_ctrl_code
  rw [if_pos ⟨h1, h2⟩, Nat.shiftLeft_eq, one_mul, Nat.mod_eq_of_lt]
  have h7 : key - KEY_CTRL_CODE_MIN ≤ 7 := by
    unfold KEY_CTRL_CODE_MIN KEY_CTRL_CODE_MAX at *
    omega
  calc 2 ^ (key - KEY_CTRL_CODE_MIN) ≤ 2 ^ 7 :=
        Nat.pow_le_pow_right (by norm_num) h7
    _ < 256 := by norm_num

lemma button_ctrl_code_of_not_ctrl {key : Nat}
    (h : ¬ (KEY_CTRL_CODE_MIN ≤ key ∧ key ≤ KEY_CTRL_CODE_MAX)) :
    button_ctrl_code key = 0 := by
  unfold button_ctrl_code
  rw [if_neg h]

lemma clear_first_eq_of_not_mem {l : List Nat} {k : Nat} (h : k ∉ l) :
    clear_first_eq l k = l := by
  induction l with
  | nil => rfl
  | cons x xs ih =>
    simp only [List.mem_cons, not_or] at h
    rw [clear_first_eq, if_neg (fun hx => h.1 hx.symm), ih h.2]

lemma set_then_clear {k : Nat} :
    ∀ {l l' : List Nat}, k ∉ l → set_first_zero l k = some l' →
      clear_first_eq l' k = l := by
  intro l
  induction l with
  | nil => intro l' _ hset; simp [set_first_zero] at hset
  | cons x xs ih =>
    intro l' hmem hset
    simp only [List.mem_cons, not_or] at hmem
    by_cases hx : x = 0
    · subst hx
      rw [set_first_zero, if_pos rfl] at hset
      cases hset
      rw [clear_first_eq, if_pos rfl]
    · rw [set_first_zero, if_neg hx] at hset
      cases hrec : set_first_zero xs k with
      | none => rw [hrec] at hset; cases hset
      | some ys =>
        rw [hrec] at hset
        cases hset
        rw [clear_first_eq, if_neg (fun h => hmem.1 h.symm), ih hmem.2 hrec]

/-! ### Bit-level helper lemmas for the `uint8_t` control byte -/

lemma testBit_mask255 (i j : Nat) :
    (255 ^^^ 2 ^ i).testBit j = (decide (j < 8) ^^ decide (i = j)) := by
  have h255 : (255 : Nat) = 2 ^ 8 - 1 := by norm_num
  rw [Nat.testBit_xor, h255, Nat.testBit_two_pow_sub_one, Nat.testBit_two_pow]

lemma and_two_pow_eq_zero_iff {c i : Nat} :
    c &&& 2 ^ i = 0 ↔ c.testBit i = false := by
  constructor
  · intro h
    have h2 := congrArg (fun n => Nat.testBit n i) h
    simpa [Nat.testBit_and, Nat.testBit_two_pow] using h2
  · intro h
    apply Nat.eq_of_testBit_eq
    intro j
    rw [Nat.testBit_and, Nat.testBit_two_pow]
    by_cases hij : i = j
    · subst hij; simp [h]
    · simp [hij]

lemma testBit_of_ge_eight {c j : Nat} (hc : c < 256) (hj : ¬ j < 8) :
    c.testBit j = false := by
  apply Nat.testBit_lt_two_pow
  calc c < 256 := hc
    _ = 2 ^ 8 := by norm_num
    _ ≤ 2 ^ j := Nat.pow_le_pow_right (by norm_num) (le_of_not_lt hj)

lemma and_mask_eq_self {c i : Nat} (hc : c < 256)
    (h : c.testBit i = false) : c &&& (255 ^^^ 2 ^ i) = c := by
  apply Nat.eq_of_testBit_eq
  intro j
  rw [Nat.testBit_and, testBit_mask255]
  by_cases hj8 : j < 8
  · by_cases hij : i = j
    · subst hij; simp [h]
    · simp [hj8, hij]
  · simp [testBit_of_ge_eight hc hj8]

lemma or_and_mask_eq_self {c i : Nat} (hc : c < 256) (hi : i < 8)
    (h : c.testBit i = false) : (c ||| 2 ^ i) &&& (255 ^^^ 2 ^ i) = c := by
  apply Nat.eq_of_testBit_eq
  intro j
  rw [Nat.testBit_and, Nat.testBit_or, testBit_mask255, Nat.testBit_two_pow]
  by_cases hj8 : j < 8
  · by_cases hij : i = j
    · subst hij; simp [h, hj8]
    · simp [hj8, hij]
  · have hij : ¬ i = j := by omega
    simp [testBit_of_ge_eight hc hj8, hij]

/-- "Key `key` is not currently pressed in state `st`": for a control key
its modifier bit is clear, for any other code it is absent from the key
slots. -/
def key_not_pressed (st : keyboard_state) (key : Nat) : Prop :=
  if button_ctrl_code key ≠ 0 then
    st.ctrl_keys_state &&& button_ctrl_code key = 0
  else key ∉ st.keys_state

instance (st : keyboard_state) (key : Nat) :
    Decidable (key_not_pressed st key) := by
  unfold key_not_pressed; infer_instance

end AppHid

namespace AppHid

/-- C6: releasing a key that is not currently pressed (modifier bit clear
for a control key, code absent from the key slots otherwise) returns
success and leaves the keyboard state — hence the report bytes —
unchanged. -/
theorem C6_release_unpressed_noop (st : keyboard_state) (key : Nat)
    (hwf : st.ctrl_keys_state < 256) (hnp : key_not_pressed st key) :
    hid_kbd_state_key_clear st key = (st, 0) ∧
      report_bytes (hid_kbd_state_key_clear st key).1 = report_bytes st := by
  unfold key_not_pressed at hnp
  have main : hid_kbd_state_key_clear st key = (st, 0) := by
    by_cases hc : button_ctrl_code key ≠ 0
    · rw [if_pos hc] at hnp
      have hrange : KEY_CTRL_CODE_MIN ≤ key ∧ key ≤ KEY_CTRL_CODE_MAX := by
        by_contra hn
        exact hc (button_ctrl_code_of_not_ctrl hn)
      have hmask := button_ctrl_code_of_ctrl hrange.1 hrange.2
      rw [hmask] at hnp
      have hbit : st.ctrl_keys_state.testBit (key - KEY_CTRL_CODE_MIN) = false :=
        and_two_pow_eq_zero_iff.mp hnp
      have hpow : (2 : Nat) ^ (key - KEY_CTRL_CODE_MIN) ≠ 0 :=
        pow_ne_zero _ (by norm_num)
      simp only [hid_kbd_state_key_clear, hmask, if_pos hpow,
        and_mask_eq_self hwf hbit]
    · rw [if_neg hc] at hnp
      simp only [hid_kbd_state_key_clear, if_neg hc,
        clear_first_eq_of_not_mem hnp]
  exact ⟨main, by rw [main]⟩

/-- Witness for C6 at a concrete state and key. -/
theorem C6_release_unpressed_noop_witness :
    ((⟨2, [4, 0, 0, 0, 0, 0]⟩ : keyboard_state).ctrl_keys_state < 256 ∧
      key_not_pressed ⟨2, [4, 0, 0, 0, 0, 0]⟩ 5) ∧
    hid_kbd_state_key_clear ⟨2, [4, 0, 0, 0, 0, 0]⟩ 5 =
      (⟨2, [4, 0, 0, 0, 0, 0]⟩, 0) :=
  ⟨⟨by decide, by decide⟩,
    (C6_release_unpressed_noop ⟨2, [4, 0, 0, 0, 0, 0]⟩ 5
      (by decide) (by decide)).1⟩

/-- C3 fails as stated: from the reachable state holding key 4, pressing 4
again stores a second copy in slot 1, and the release then zeroes slot 0,
leaving different report bytes. -/
theorem C3_counterexample :
    report_bytes ((hid_kbd_state_key_clear
        ((hid_kbd_state_key_set (run_events [.press 4]) 4).1) 4).1) ≠
      report_bytes (run_events [.press 4]) := by decide

/-- C3 (amended): for every well-formed keyboard state in which `key` is
not already pressed, `press(key); release(key)` restores the state, hence
the exact 8 report bytes. -/
theorem C3_press_release_roundtrip (st : keyboard_state) (key : Nat)
    (hwf : st.ctrl_keys_state < 256) (hnp : key_not_pressed st key) :
    (hid_kbd_state_key_clear ((hid_kbd_state_key_set st key).1) key).1 = st ∧
      report_bytes ((hid_kbd_state_key_clear
        ((hid_kbd_state_key_set st key).1) key).1) = report_bytes st := by
  unfold key_not_pressed at hnp
  have main :
      (hid_kbd_state_key_clear ((hid_kbd_state_key_set st key).1) key).1 = st := by
    by_cases hc : button_ctrl_code key ≠ 0
    · rw [if_pos hc] at hnp
      have hrange : KEY_CTRL_CODE_MIN ≤ key ∧ key ≤ KEY_CTRL_CODE_MAX := by
        by_contra hn
        exact hc (button_ctrl_code_of_not_ctrl hn)
      have hmask := button_ctrl_code_of_ctrl hrange.1 hrange.2
      rw [hmask] at hnp
      have hbit : st.ctrl_keys_state.testBit (key - KEY_CTRL_CODE_MIN) = false :=
        and_two_pow_eq_zero_iff.mp hnp
      have hi : key - KEY_CTRL_CODE_MIN < 8 := by
        unfold KEY_CTRL_CODE_MIN KEY_CTRL_CODE_MAX at *
        omega
      have hpow : (2 : Nat) ^ (key - KEY_CTRL_CODE_MIN) ≠ 0 :=
        pow_ne_zero _ (by norm_num)
      have hset1 : (hid_kbd_state_key_set st key).1 =
          { st with ctrl_keys_state :=
              st.ctrl_keys_state ||| 2 ^ (key - KEY_CTRL_CODE_MIN) } := by
        simp only [hid_kbd_state_key_set, hmask, if_pos hpow]
      rw [hset1]
      simp only [hid_kbd_state_key_clear, hmask, if_pos hpow]
      simp only [or_and_mask_eq_self hwf hi hbit]
    · rw [if_neg hc] at hnp
      cases hset : set_first_zero st.keys_state key with
      | none =>
        have hset1 : (hid_kbd_state_key_set st key).1 = st := by
          simp only [hid_kbd_state_key_set, if_neg hc, hset]
        rw [hset1]
        simp only [hid_kbd_state_key_clear, if_neg hc,
          clear_first_eq_of_not_mem hnp]
      | some ks =>
        have hset1 : (hid_kbd_state_key_set st key).1 =
            { st with keys_state := ks } := by
          simp only [hid_kbd_state_key_set, if_neg hc, hset]
        rw [hset1]
        simp only [hid_kbd_state_key_clear, if_neg hc]
        simp only [set_then_clear hnp hset]
  exact ⟨main, by rw [main]⟩

/-- Witness for C3 at a concrete state and key. -/
theorem C3_press_release_roundtrip_witness :
    ((⟨2, [9, 0, 0, 0, 0, 0]⟩ : keyboard_state).ctrl_keys_state < 256 ∧
      key_not_pressed ⟨2, [9, 0, 0, 0, 0, 0]⟩ 4) ∧
    (hid_kbd_state_key_clear
        ((hid_kbd_state_key_set ⟨2, [9, 0, 0, 0, 0, 0]⟩ 4).1) 4).1 =
      ⟨2, [9, 0, 0, 0, 0, 0]⟩ :=
  ⟨⟨by decide, by decide⟩,
    (C3_press_release_roundtrip ⟨2, [9, 0, 0, 0, 0, 0]⟩ 4
      (by decide) (by decide)).1⟩

/-- C5: from the all-zero state, pressing 7 distinct nonzero non-modifier
key codes succeeds for the first 6 (all stored in order) and the batch of
7 fails with `-EBUSY`, the first 6 keys still stored. -/
theorem C5_seventh_press_fails (k : Fin 7 → Nat)
    (hnz : ∀ i, k i ≠ 0)
    (hnc : ∀ i, button_ctrl_code (k i) = 0)
    (_hdist : ∀ i j, i ≠ j → k i ≠ k j) :
    hid_buttons_press_keys init_keyboard_state
        [k 0, k 1, k 2, k 3, k 4, k 5] =
      ({ ctrl_keys_state := 0,
         keys_state := [k 0, k 1, k 2, k 3, k 4, k 5] }, 0) ∧
    hid_buttons_press_keys init_keyboard_state
        [k 0, k 1, k 2, k 3, k 4, k 5, k 6] =
      ({ ctrl_keys_state := 0,
         keys_state := [k 0, k 1, k 2, k 3, k 4, k 5] }, -EBUSY) := by
  constructor <;>
    simp [hid_buttons_press_keys, hid_kbd_state_key_set, set_first_zero,
      init_keyboard_state, KEY_PRESS_MAX, List.replicate, hnc, hnz, EBUSY]

/-- Witness for C5 with the concrete key codes 4..10. -/
theorem C5_seventh_press_fails_witness :
    ((∀ i : Fin 7, (fun j : Fin 7 => j.val + 4) i ≠ 0) ∧
      (∀ i : Fin 7, button_ctrl_code ((fun j : Fin 7 => j.val + 4) i) = 0) ∧
      (∀ i j : Fin 7, i ≠ j →
        (fun j : Fin 7 => j.val + 4) i ≠ (fun j : Fin 7 => j.val + 4) j)) ∧
    hid_buttons_press_keys init_keyboard_state [4, 5, 6, 7, 8, 9, 10] =
      ({ ctrl_keys_state := 0, keys_state := [4, 5, 6, 7, 8, 9] }, -EBUSY) :=
  ⟨⟨by decide, by decide, by decide⟩,
    (C5_seventh_press_fails (fun j : Fin 7 => j.val + 4)
      (by decide) (by decide) (by decide)).2⟩

end AppHid

namespace AppHid

/-! ### The keyboard-state invariants driven by event sequences (C2) -/

/-- The key-slot half of the claimed invariant: no non-zero key code
occurs in two slots. -/
def no_dup_nonzero (l : List Nat) : Prop :=
  (l.filter (fun x => x != 0)).Nodup

instance (l : List Nat) : Decidable (no_dup_nonzero l) := by
  unfold no_dup_nonzero; infer_instance

/-- A control key `c` counts as currently pressed after `es` (starting
from pressed-state `b`) iff the last press/release event for `c` in `es`
was a press. -/
def ctrl_pressed_from (b : Bool) (es : List KbdEvent) (c : Nat) : Bool :=
  es.foldl (fun acc e =>
    match e with
    | .press k => if k = c then true else acc
    | .release k => if k = c then false else acc) b

/-- A control key `c` counts as currently pressed after `es` (from the
all-released initial state) iff its last event in `es` was a press. -/
def ctrl_pressed (es : List KbdEvent) (c : Nat) : Bool :=
  ctrl_pressed_from false es c

/-- Bitwise OR of the control-key bitmasks (`button_ctrl_code`, one bit
per code 224..231) of exactly the control keys satisfying `p`. -/
def ctrl_mask_or (p : Nat → Bool) : Nat :=
  (if p 224 then button_ctrl_code 224 else 0) |||
  (if p 225 then button_ctrl_code 225 else 0) |||
  (if p 226 then button_ctrl_code 226 else 0) |||
  (if p 227 then button_ctrl_code 227 else 0) |||
  (if p 228 then button_ctrl_code 228 else 0) |||
  (if p 229 then button_ctrl_code 229 else 0) |||
  (if p 230 then button_ctrl_code 230 else 0) |||
  (if p 231 then button_ctrl_code 231 else 0)

/-- Admissible event sequences: a non-modifier, nonzero key is only
pressed while it is not already stored in the key slots. -/
def kbd_admissible_from (st : keyboard_state) : List KbdEvent → Prop
  | [] => True
  | e :: es =>
    (match e with
     | .press k => button_ctrl_code k = 0 → k ≠ 0 → k ∉ st.keys_state
     | .release _ => True) ∧ kbd_admissible_from (apply_event st e) es

instance kbd_admissible_from_dec :
    (st : keyboard_state) → (es : List KbdEvent) →
      Decidable (kbd_admissible_from st es)
  | _, [] => .isTrue trivial
  | st, e :: es =>
    have : Decidable (kbd_admissible_from (apply_event st e) es) :=
      kbd_admissible_from_dec (apply_event st e) es
    match e with
    | .press _ => by unfold kbd_admissible_from; exact inferInstance
    | .release _ => by unfold kbd_admissible_from; exact inferInstance

lemma mem_of_mem_set_first_zero {k y : Nat} :
    ∀ {l ks : List Nat}, set_first_zero l k = some ks → y ∈ ks →
      y = k ∨ y ∈ l := by
  intro l
  induction l with
  | nil => intro ks h; simp [set_first_zero] at h
  | cons x xs ih =>
    intro ks hset hy
    by_cases hx : x = 0
    · subst hx
      rw [set_first_zero, if_pos rfl] at hset
      cases hset
      rcases List.mem_cons.mp hy with h | h
      · exact Or.inl h
      · exact Or.inr (List.mem_cons_of_mem _ h)
    · rw [set_first_zero, if_neg hx] at hset
      cases hrec : set_first_zero xs k with
      | none => rw [hrec] at hset; cases hset
      | some ys =>
        rw [hrec] at hset
        cases hset
        rcases List.mem_cons.mp hy with h | h
        · exact Or.inr (h ▸ List.mem_cons_self x xs)
        · rcases ih hrec h with h2 | h2
          · exact Or.inl h2
          · exact Or.inr (List.mem_cons_of_mem _ h2)

lemma mem_of_mem_clear_first_eq {k y : Nat} :
    ∀ {l : List Nat}, y ∈ clear_first_eq l k → y = 0 ∨ y ∈ l := by
  intro l
  induction l with
  | nil => intro h; simp [clear_first_eq] at h
  | cons x xs ih =>
    intro hy
    by_cases hx : x = k
    · rw [clear_first_eq, if_pos hx] at hy
      rcases List.mem_cons.mp hy with h | h
      · exact Or.inl h
      · exact Or.inr (List.mem_cons_of_mem _ h)
    · rw [clear_first_eq, if_neg hx] at hy
      rcases List.mem_cons.mp hy with h | h
      · exact Or.inr (h ▸ List.mem_cons_self x xs)
      · rcases ih h with h2 | h2
        · exact Or.inl h2
        · exact Or.inr (List.mem_cons_of_mem _ h2)

lemma set_first_zero_zero :
    ∀ {l ks : List Nat}, set_first_zero l 0 = some ks → ks = l := by
  intro l
  induction l with
  | nil => intro ks h; simp [set_first_zero] at h
  | cons x xs ih =>
    intro ks hset
    by_cases hx : x = 0
    · subst hx
      rw [set_first_zero, if_pos rfl] at hset
      cases hset
      rfl
    · rw [set_first_zero, if_neg hx] at hset
      cases hrec : set_first_zero xs 0 with
      | none => rw [hrec] at hset; cases hset
      | some ys =>
        rw [hrec] at hset
        cases hset
        rw [ih hrec]

lemma nodup_filter_set_first_zero {k : Nat} (hk : k ≠ 0) :
    ∀ {l ks : List Nat}, set_first_zero l k = some ks → k ∉ l →
      no_dup_nonzero l → no_dup_nonzero ks := by
  intro l
  induction l with
  | nil => intro ks h; simp [set_first_zero] at h
  | cons x xs ih =>
    intro ks hset hmem hnd
    simp only [List.mem_cons, not_or] at hmem
    unfold no_dup_nonzero at *
    by_cases hx : x = 0
    · subst hx
      rw [set_first_zero, if_pos rfl] at hset
      cases hset
      rw [List.filter_cons_of_neg (by simp)] at hnd
      rw [List.filter_cons_of_pos (by simp [hk])]
      exact List.nodup_cons.mpr
        ⟨fun hmem2 => hmem.2 (List.mem_filter.mp hmem2).1, hnd⟩
    · rw [set_first_zero, if_neg hx] at hset
      cases hrec : set_first_zero xs k with
      | none => rw [hrec] at hset; cases hset
      | some ys =>
        rw [hrec] at hset
        cases hset
        rw [List.filter_cons_of_pos (by simp [hx])] at hnd
        rw [List.filter_cons_of_pos (by simp [hx])]
        have hnd2 := List.nodup_cons.mp hnd
        refine List.nodup_cons.mpr ⟨?_, ih hrec hmem.2 hnd2.2⟩
        intro hmem2
        have hys := (List.mem_filter.mp hmem2).1
        rcases mem_of_mem_set_first_zero hrec hys with h2 | h2
        · exact hmem.1 h2.symm
        · exact hnd2.1 (List.mem_filter.mpr ⟨h2, by simp [hx]⟩)

lemma nodup_filter_clear_first_eq {k : Nat} :
    ∀ {l : List Nat}, no_dup_nonzero l →
      no_dup_nonzero (clear_first_eq l k) := by
  intro l
  induction l with
  | nil => intro h; exact h
  | cons x xs ih =>
    intro hnd
    unfold no_dup_nonzero at *
    by_cases hx : x = k
    · rw [clear_first_eq, if_pos hx]
      rw [List.filter_cons_of_neg (by simp)]
      by_cases hx0 : x = 0
      · rw [List.filter_cons_of_neg (by simp [hx0])] at hnd
        exact hnd
      · rw [List.filter_cons_of_pos (by simp [hx0])] at hnd
        exact (List.nodup_cons.mp hnd).2
    · rw [clear_first_eq, if_neg hx]
      by_cases hx0 : x = 0
      · rw [List.filter_cons_of_neg (by simp [hx0])] at hnd ⊢
        exact ih hnd
      · rw [List.filter_cons_of_pos (by simp [hx0])] at hnd ⊢
        have hnd2 := List.nodup_cons.mp hnd
        refine List.nodup_cons.mpr ⟨?_, ih hnd2.2⟩
        intro hmem2
        have hxs := (List.mem_filter.mp hmem2).1
        rcases mem_of_mem_clear_first_eq hxs with h2 | h2
        · exact hx0 h2
        · exact hnd2.1 (List.mem_filter.mpr ⟨h2, by simp [hx0]⟩)

lemma no_dup_apply_event {st : keyboard_state} {e : KbdEvent}
    (hnd : no_dup_nonzero st.keys_state)
    (hadm : match e with
            | .press k => button_ctrl_code k = 0 → k ≠ 0 → k ∉ st.keys_state
            | .release _ => True) :
    no_dup_nonzero (apply_event st e).keys_state := by
  cases e with
  | press k =>
    by_cases hc : button_ctrl_code k ≠ 0
    · simp only [apply_event, hid_kbd_state_key_set, if_pos hc]
      exact hnd
    · push_neg at hc
      cases hset : set_first_zero st.keys_state k with
      | none =>
        simp only [apply_event, hid_kbd_state_key_set, hc, ne_eq,
          not_true_eq_false, if_false, hset]
        exact hnd
      | some ks =>
        simp only [apply_event, hid_kbd_state_key_set, hc, ne_eq,
          not_true_eq_false, if_false, hset]
        by_cases hk0 : k = 0
        · subst hk0
          rw [set_first_zero_zero hset]
          exact hnd
        · exact nodup_filter_set_first_zero hk0 hset (hadm hc hk0) hnd
  | release k =>
    by_cases hc : button_ctrl_code k ≠ 0
    · simp only [apply_event, hid_kbd_state_key_clear, if_pos hc]
      exact hnd
    · push_neg at hc
      simp only [apply_event, hid_kbd_state_key_clear, hc, ne_eq,
        not_true_eq_false, if_false]
      exact nodup_filter_clear_first_eq hnd

lemma no_dup_run_events_from :
    ∀ (es : List KbdEvent) (st : keyboard_state),
      no_dup_nonzero st.keys_state → kbd_admissible_from st es →
      no_dup_nonzero (run_events_from st es).keys_state := by
  intro es
  induction es with
  | nil => intro st hnd _; exact hnd
  | cons e es ih =>
    intro st hnd hadm
    unfold kbd_admissible_from at hadm
    exact ih (apply_event st e) (no_dup_apply_event hnd hadm.1) hadm.2

end AppHid

namespace AppHid

lemma apply_event_press_ctrl {k : Nat} (h1 : KEY_CTRL_CODE_MIN ≤ k)
    (h2 : k ≤ KEY_CTRL_CODE_MAX) (st : keyboard_state) :
    (apply_event st (.press k)).ctrl_keys_state =
      st.ctrl_keys_state ||| 2 ^ (k - KEY_CTRL_CODE_MIN) := by
  have hmask := button_ctrl_code_of_ctrl h1 h2
  have hpow : (2 : Nat) ^ (k - KEY_CTRL_CODE_MIN) ≠ 0 :=
    pow_ne_zero _ (by norm_num)
  simp [apply_event, hid_kbd_state_key_set, hmask, hpow]

lemma apply_event_press_nonctrl {k : Nat} (h : button_ctrl_code k = 0)
    (st : keyboard_state) :
    (apply_event st (.press k)).ctrl_keys_state = st.ctrl_keys_state := by
  cases hset : set_first_zero st.keys_state k <;>
    simp [apply_event, hid_kbd_state_key_set, h, hset]

lemma apply_event_release_ctrl {k : Nat} (h1 : KEY_CTRL_CODE_MIN ≤ k)
    (h2 : k ≤ KEY_CTRL_CODE_MAX) (st : keyboard_state) :
    (apply_event st (.release k)).ctrl_keys_state =
      st.ctrl_keys_state &&& (255 ^^^ 2 ^ (k - KEY_CTRL_CODE_MIN)) := by
  have hmask := button_ctrl_code_of_ctrl h1 h2
  have hpow : (2 : Nat) ^ (k - KEY_CTRL_CODE_MIN) ≠ 0 :=
    pow_ne_zero _ (by norm_num)
  simp [apply_event, hid_kbd_state_key_clear, hmask, hpow]

lemma apply_event_release_nonctrl {k : Nat} (h : button_ctrl_code k = 0)
    (st : keyboard_state) :
    (apply_event st (.release k)).ctrl_keys_state = st.ctrl_keys_state := by
  simp [apply_event, hid_kbd_state_key_clear, h]

lemma apply_event_ctrl_lt {st : keyboard_state} {e : KbdEvent}
    (h : st.ctrl_keys_state < 256) :
    (apply_event st e).ctrl_keys_state < 256 := by
  cases e with
  | press k =>
    by_cases hc : KEY_CTRL_CODE_MIN ≤ k ∧ k ≤ KEY_CTRL_CODE_MAX
    · rw [apply_event_press_ctrl hc.1 hc.2 st]
      have h8 : (256 : Nat) = 2 ^ 8 := by norm_num
      rw [h8] at h ⊢
      refine Nat.or_lt_two_pow h ?_
      have hlt : k - KEY_CTRL_CODE_MIN < 8 := by
        unfold KEY_CTRL_CODE_MIN KEY_CTRL_CODE_MAX at *
        omega
      exact Nat.pow_lt_pow_right (by norm_num) hlt
    · rw [apply_event_press_nonctrl (button_ctrl_code_of_not_ctrl hc) st]
      exact h
  | release k =>
    by_cases hc : KEY_CTRL_CODE_MIN ≤ k ∧ k ≤ KEY_CTRL_CODE_MAX
    · rw [apply_event_release_ctrl hc.1 hc.2 st]
      exact lt_of_le_of_lt Nat.and_le_left h
    · rw [apply_event_release_nonctrl (button_ctrl_code_of_not_ctrl hc) st]
      exact h

lemma run_ctrl_lt :
    ∀ (es : List KbdEvent) (st : keyboard_state),
      st.ctrl_keys_state < 256 →
      (run_events_from st es).ctrl_keys_state < 256 := by
  intro es
  induction es with
  | nil => intro st h; exact h
  | cons e es ih => intro st h; exact ih _ (apply_event_ctrl_lt h)

lemma ctrl_testBit_run :
    ∀ (es : List KbdEvent) (st : keyboard_state),
      st.ctrl_keys_state < 256 → ∀ i, i < 8 →
      (run_events_from st es).ctrl_keys_state.testBit i =
        ctrl_pressed_from (st.ctrl_keys_state.testBit i) es
          (KEY_CTRL_CODE_MIN + i) := by
  intro es
  induction es with
  | nil => intro st _ i _; rfl
  | cons e es ih =>
    intro st hst i hi
    have hstep : run_events_from st (e :: es) =
        run_events_from (apply_event st e) es := rfl
    rw [hstep]
    have hlt : (apply_event st e).ctrl_keys_state < 256 :=
      apply_event_ctrl_lt hst
    cases e with
    | press k =>
      have hunf : ctrl_pressed_from (st.ctrl_keys_state.testBit i)
          (KbdEvent.press k :: es) (KEY_CTRL_CODE_MIN + i) =
        ctrl_pressed_from
          (if k = KEY_CTRL_CODE_MIN + i then true
           else st.ctrl_keys_state.testBit i)
          es (KEY_CTRL_CODE_MIN + i) := rfl
      rw [hunf, ih _ hlt i hi]
      by_cases hc : KEY_CTRL_CODE_MIN ≤ k ∧ k ≤ KEY_CTRL_CODE_MAX
      · have hbit : (apply_event st (.press k)).ctrl_keys_state.testBit i =
            (if k = KEY_CTRL_CODE_MIN + i then true
             else st.ctrl_keys_state.testBit i) := by
          rw [apply_event_press_ctrl hc.1 hc.2 st, Nat.testBit_or,
            Nat.testBit_two_pow]
          by_cases hk : k = KEY_CTRL_CODE_MIN + i
          · have hsub : k - KEY_CTRL_CODE_MIN = i := by omega
            simp [hk, hsub]
          · have hsub : ¬ (k - KEY_CTRL_CODE_MIN = i) := by
              unfold KEY_CTRL_CODE_MIN KEY_CTRL_CODE_MAX at *
              omega
            simp [hk, hsub]
        rw [hbit]
      · have hbit : (apply_event st (.press k)).ctrl_keys_state.testBit i =
            (if k = KEY_CTRL_CODE_MIN + i then true
             else st.ctrl_keys_state.testBit i) := by
          rw [apply_event_press_nonctrl (button_ctrl_code_of_not_ctrl hc) st]
          have hk : ¬ k = KEY_CTRL_CODE_MIN + i := by
            unfold KEY_CTRL_CODE_MIN KEY_CTRL_CODE_MAX at *
            omega
          rw [if_neg hk]
        rw [hbit]
    | release k =>
      have hunf : ctrl_pressed_from (st.ctrl_keys_state.testBit i)
          (KbdEvent.release k :: es) (KEY_CTRL_CODE_MIN + i) =
        ctrl_pressed_from
          (if k = KEY_CTRL_CODE_MIN + i then false
           else st.ctrl_keys_state.testBit i)
          es (KEY_CTRL_CODE_MIN + i) := rfl
      rw [hunf, ih _ hlt i hi]
      by_cases hc : KEY_CTRL_CODE_MIN ≤ k ∧ k ≤ KEY_CTRL_CODE_MAX
      · have hbit : (apply_event st (.release k)).ctrl_keys_state.testBit i =
            (if k = KEY_CTRL_CODE_MIN + i then false
             else st.ctrl_keys_state.testBit i) := by
          rw [apply_event_release_ctrl hc.1 hc.2 st, Nat.testBit_and,
            testBit_mask255]
          by_cases hk : k = KEY_CTRL_CODE_MIN + i
          · have hsub : k - KEY_CTRL_CODE_MIN = i := by omega
            simp [hk, hsub, hi]
          · have hsub : ¬ (k - KEY_CTRL_CODE_MIN = i) := by
              unfold KEY_CTRL_CODE_MIN KEY_CTRL_CODE_MAX at *
              omega
            simp [hk, hsub, hi]
        rw [hbit]
      · have hbit : (apply_event st (.release k)).ctrl_keys_state.testBit i =
            (if k = KEY_CTRL_CODE_MIN + i then false
             else st.ctrl_keys_state.testBit i) := by
          rw [apply_event_release_nonctrl (button_ctrl_code_of_not_ctrl hc) st]
          have hk : ¬ k = KEY_CTRL_CODE_MIN + i := by
            unfold KEY_CTRL_CODE_MIN KEY_CTRL_CODE_MAX at *
            omega
          rw [if_neg hk]
        rw [hbit]

lemma testBit_if (b : Bool) (m j : Nat) :
    (if b = true then m else 0).testBit j = (b && m.testBit j) := by
  cases b <;> simp

lemma ctrl_mask_or_testBit (p : Nat → Bool) (j : Nat) :
    (ctrl_mask_or p).testBit j =
      (decide (j < 8) && p (KEY_CTRL_CODE_MIN + j)) := by
  have e0 : button_ctrl_code 224 = 2 ^ 0 := by decide
  have e1 : button_ctrl_code 225 = 2 ^ 1 := by decide
  have e2 : button_ctrl_code 226 = 2 ^ 2 := by decide
  have e3 : button_ctrl_code 227 = 2 ^ 3 := by decide
  have e4 : button_ctrl_code 228 = 2 ^ 4 := by decide
  have e5 : button_ctrl_code 229 = 2 ^ 5 := by decide
  have e6 : button_ctrl_code 230 = 2 ^ 6 := by decide
  have e7 : button_ctrl_code 231 = 2 ^ 7 := by decide
  unfold ctrl_mask_or
  rw [e0, e1, e2, e3, e4, e5, e6, e7]
  simp only [Nat.testBit_or, testBit_if, Nat.testBit_two_pow]
  by_cases hj : j < 8
  · unfold KEY_CTRL_CODE_MIN
    interval_cases j <;> simp
  · have h0 : ¬ (0 = j) := by omega
    have h1 : ¬ (1 = j) := by omega
    have h2 : ¬ (2 = j) := by omega
    have h3 : ¬ (3 = j) := by omega
    have h4 : ¬ (4 = j) := by omega
    have h5 : ¬ (5 = j) := by omega
    have h6 : ¬ (6 = j) := by omega
    have h7 : ¬ (7 = j) := by omega
    simp [h0, h1, h2, h3, h4, h5, h6, h7, hj]

lemma eq_ctrl_mask_or {c : Nat} (hc : c < 256) (p : Nat → Bool)
    (h : ∀ i, i < 8 → c.testBit i = p (KEY_CTRL_CODE_MIN + i)) :
    c = ctrl_mask_or p := by
  apply Nat.eq_of_testBit_eq
  intro j
  rw [ctrl_mask_or_testBit]
  by_cases hj : j < 8
  · simp [hj, h j hj]
  · simp [hj, testBit_of_ge_eight hc hj]

/-- C2 fails as stated: pressing key 4 twice (no intervening release)
stores the non-zero code 4 in two slots. -/
theorem C2_counterexample :
    ¬ (no_dup_nonzero (run_events [.press 4, .press 4]).keys_state ∧
       (run_events [.press 4, .press 4]).ctrl_keys_state =
         ctrl_mask_or (fun c => ctrl_pressed [.press 4, .press 4] c)) := by
  decide

/-- C2 (amended): for every event sequence from the all-zero state in
which a nonzero non-modifier key is pressed only while not already
stored, the key slots never hold the same non-zero code twice and the
control byte equals the bitwise OR of the bitmasks of exactly the
currently pressed control keys. -/
theorem C2_keyboard_invariant (es : List KbdEvent)
    (hadm : kbd_admissible_from init_keyboard_state es) :
    no_dup_nonzero (run_events es).keys_state ∧
    (run_events es).ctrl_keys_state =
      ctrl_mask_or (fun c => ctrl_pressed es c) := by
  constructor
  · exact no_dup_run_events_from es init_keyboard_state (by decide) hadm
  · have hlt : (run_events es).ctrl_keys_state < 256 :=
      run_ctrl_lt es init_keyboard_state (by decide)
    apply eq_ctrl_mask_or hlt
    intro i hi
    have hbits := ctrl_testBit_run es init_keyboard_state (by decide) i hi
    simpa [init_keyboard_state, ctrl_pressed] using hbits

/-- Witness for C2 at a concrete admissible event sequence. -/
theorem C2_keyboard_invariant_witness :
    kbd_admissible_from init_keyboard_state
        [.press 224, .press 4, .release 224, .press 225] ∧
    (no_dup_nonzero
        (run_events [.press 224, .press 4, .release 224, .press 225]).keys_state ∧
      (run_events [.press 224, .press 4, .release 224, .press 225]).ctrl_keys_state =
        ctrl_mask_or (fun c =>
          ctrl_pressed [.press 224, .press 4, .release 224, .press 225] c)) :=
  ⟨by decide, C2_keyboard_invariant _ (by decide)⟩

end AppHid

namespace AppBle

/-- One entry of the `conn_mode[]` table from app_ble.c: the connection
handle (`none` = NULL) and the per-connection protocol mode flag. -/
structure conn_slot where
  conn : Option Nat
  in_boot_mode : Bool
  deriving Repr, DecidableEq

/-- The module-level mutable state of app_ble.c. -/
structure ble_state where
  conn_mode : List conn_slot
  is_adv : Bool
  is_internal_ble_disconnect : Bool
  isBle_connected : Bool
  deriving Repr, DecidableEq

/-- Calls issued to the external BLE/HID collaborators, in program
order. -/
inductive BleEffect where
  | hid_connect (c : Nat)
  | hid_disconnect (c : Nat)
  | conn_disconnect (c : Nat)
  | conn_unref (c : Nat)
  | adv_start_req
  | adv_stop_req
  | sleep_ms (n : Nat)
  deriving Repr, DecidableEq

/-- `advertising_start` from app_ble.c.  `adv_err` is the result of the
external `bt_le_adv_start` call: on any failure (including `-EALREADY`)
the function only logs and returns, on success it sets `is_adv`. -/
def advertising_start (adv_err : Int) (st : ble_state) :
    ble_state × List BleEffect :=
  if adv_err ≠ 0 then (st, [.adv_start_req])
  else ({ st with is_adv := true }, [.adv_start_req])

/-- The slot-assignment loop of `connected`: store the handle in the
first empty slot with `in_boot_mode = false`; no slot changes when the
table is full. -/
def assign_first_empty : List conn_slot → Nat → List conn_slot
  | [], _ => []
  | s :: ss, c =>
    if s.conn = none then { conn := some c, in_boot_mode := false } :: ss
    else s :: assign_first_empty ss c

/-- The `connected` callback from app_ble.c, compiled with
`CONFIG_NFC_OOB_PAIRING == 0` (so a remaining free slot restarts
advertising).  `err` is the callback's error argument, `hid_err` the
result of `connect_bt_hid`, `adv_err` the result of the
`bt_le_adv_start` call made when `advertising_start` is reached. -/
def connected (st : ble_state) (c : Nat) (err : Nat) (hid_err adv_err : Int) :
    ble_state × List BleEffect :=
  if err ≠ 0 then (st, [])
  else if hid_err ≠ 0 then (st, [.hid_connect c])
  else
    let st1 := { st with conn_mode := assign_first_empty st.conn_mode c }
    if st1.conn_mode.any (fun s => s.conn.isNone) then
      let r := advertising_start adv_err st1
      (r.1, .hid_connect c :: r.2)
    else ({ st1 with is_adv := false }, [.hid_connect c])

/-- The slot-clearing loop of `disconnected`: NULL out the `conn` field
of every slot whose handle matches (the loop has no break). -/
def clear_matching : List conn_slot → Nat → List conn_slot
  | [], _ => []
  | s :: ss, c =>
    if s.conn = some c then { s with conn := none } :: clear_matching ss c
    else s :: clear_matching ss c

/-- The `disconnected` callback from app_ble.c.  When the
internal-disconnect flag is set the callback only consumes the flag and
returns.  Otherwise it notifies the HID service (the result is only
logged), clears the matching slot, clears `isBle_connected` and calls
`advertising_start` (whose `bt_le_adv_start` result is `adv_err`). -/
def disconnected (st : ble_state) (c : Nat) (adv_err : Int) :
    ble_state × List BleEffect :=
  if st.is_internal_ble_disconnect then
    ({ st with is_internal_ble_disconnect := false }, [])
  else
    let st1 := { st with
      conn_mode := clear_matching st.conn_mode c,
      isBle_connected := false }
    let r := advertising_start adv_err st1
    (r.1, .hid_disconnect c :: r.2)

/-- `ble_disconnect_safe` from app_ble.c:
set the internal-disconnect flag; for every occupied slot notify HID and
request a link disconnect (results discarded); sleep 100 ms; unref and
clear every occupied slot; stop advertising only if `is_adv` is set;
sleep 20 ms; return 0. -/
def ble_disconnect_safe (st : ble_state) :
    ble_state × List BleEffect × Int :=
  let st1 := { st with is_internal_ble_disconnect := true }
  let effs1 := st1.conn_mode.foldr (fun (s : conn_slot) (acc : List BleEffect) =>
    match s.conn with
    | some c => .hid_disconnect c :: .conn_disconnect c :: acc
    | none => acc) []
  let effs3 := st1.conn_mode.foldr (fun (s : conn_slot) (acc : List BleEffect) =>
    match s.conn with
    | some c => .conn_unref c :: acc
    | none => acc) []
  let st3 := { st1 with
    conn_mode := st1.conn_mode.map (fun (s : conn_slot) =>
      if s.conn.isSome then { conn := none, in_boot_mode := false } else s) }
  let r4 :=
    if st3.is_adv then ({ st3 with is_adv := false }, [BleEffect.adv_stop_req])
    else (st3, ([] : List BleEffect))
  (r4.1, effs1 ++ [.sleep_ms 100] ++ effs3 ++ r4.2 ++ [.sleep_ms 20], 0)

end AppBle

namespace AppHid

open AppBle

/-- `key_report_send` from app_hid.c, iterating from slot index `i`:
for each occupied slot call `key_report_con_send` (whose result for the
slot at index `i` is the oracle `f i`); on the first nonzero error
return it immediately.  Returns the `int` result together with the
indices of the slots actually attempted, in order. -/
def key_report_send_from (f : Nat → Int) :
    Nat → List conn_slot → Int × List Nat
  | _, [] => (0, [])
  | i, s :: ss =>
    match s.conn with
    | none => key_report_send_from f (i + 1) ss
    | some _ =>
      if f i ≠ 0 then (f i, [i])
      else
        let r := key_report_send_from f (i + 1) ss
        (r.1, i :: r.2)

/-- `key_report_send` from app_hid.c over the whole `conn_mode` table. -/
def key_report_send (slots : List conn_slot) (f : Nat → Int) :
    Int × List Nat :=
  key_report_send_from f 0 slots

/-- The indices of the occupied slots, counting from `i`. -/
def occupied_idx_from : Nat → List conn_slot → List Nat
  | _, [] => []
  | i, s :: ss =>
    if s.conn.isSome then i :: occupied_idx_from (i + 1) ss
    else occupied_idx_from (i + 1) ss

/-- The indices of the occupied slots of the table. -/
def occupied_idx (slots : List conn_slot) : List Nat :=
  occupied_idx_from 0 slots

/-- The first nonzero send result along a list of slot indices
(0 when every send succeeds). -/
def first_err (f : Nat → Int) : List Nat → Int
  | [] => 0
  | i :: is => if f i ≠ 0 then f i else first_err f is

/-- The prefix of a list of slot indices up to and including the first
index whose send fails. -/
def attempts_upto (f : Nat → Int) : List Nat → List Nat
  | [] => []
  | i :: is => if f i ≠ 0 then [i] else i :: attempts_upto f is

lemma key_report_send_from_spec (f : Nat → Int) :
    ∀ (slots : List conn_slot) (i : Nat),
      key_report_send_from f i slots =
        (first_err f (occupied_idx_from i slots),
         attempts_upto f (occupied_idx_from i slots)) := by
  intro slots
  induction slots with
  | nil => intro i; rfl
  | cons s ss ih =>
    intro i
    cases hc : s.conn with
    | none =>
      simp only [key_report_send_from, hc, occupied_idx_from, Option.isNone_none,
        Option.isSome_none, Bool.false_eq_true, if_false]
      exact ih (i + 1)
    | some c =>
      simp only [key_report_send_from, hc, occupied_idx_from, Option.isSome_some,
        if_true]
      by_cases hf : f i ≠ 0
      · simp only [if_pos hf, first_err, attempts_upto]
      · simp only [if_neg hf, ih (i + 1), first_err, attempts_upto]

end AppHid

namespace AppHid

open AppBle

/-- C1 fails as stated: with two occupied slots where the send to the
first fails, the second occupied slot is never attempted (the loop
returns the first error immediately). -/
theorem C1_counterexample :
    (key_report_send [⟨some 1, false⟩, ⟨some 2, false⟩]
        (fun i => if i = 0 then -5 else 0)).1 = -5 ∧
    occupied_idx [⟨some 1, false⟩, ⟨some 2, false⟩] = [0, 1] ∧
    (key_report_send [⟨some 1, false⟩, ⟨some 2, false⟩]
        (fun i => if i = 0 then -5 else 0)).2 = [0] ∧
    (1 : Nat) ∉ (key_report_send [⟨some 1, false⟩, ⟨some 2, false⟩]
        (fun i => if i = 0 then -5 else 0)).2 := by
  refine ⟨rfl, rfl, rfl, ?_⟩
  decide

/-- C1 (amended): the report broadcast attempts the occupied slots in
order only up to and including the first failing one — slots after the
first failure are not attempted — and the overall result is the first
error encountered (0 if none). -/
theorem C1_first_error (slots : List conn_slot) (f : Nat → Int) :
    (key_report_send slots f).1 = first_err f (occupied_idx slots) ∧
    (key_report_send slots f).2 = attempts_upto f (occupied_idx slots) := by
  have h := key_report_send_from_spec f slots 0
  unfold key_report_send occupied_idx
  rw [h]
  exact ⟨rfl, rfl⟩

end AppHid

namespace AppBle

lemma clear_matching_clears (c : Nat) :
    ∀ (l : List conn_slot), ∀ s ∈ clear_matching l c, s.conn ≠ some c := by
  intro l
  induction l with
  | nil => intro s h; simp [clear_matching] at h
  | cons x xs ih =>
    intro s hs
    by_cases hx : x.conn = some c
    · rw [clear_matching, if_pos hx] at hs
      rcases List.mem_cons.mp hs with h | h
      · rw [h]; simp
      · exact ih s h
    · rw [clear_matching, if_neg hx] at hs
      rcases List.mem_cons.mp hs with h | h
      · rw [h]; exact hx
      · exact ih s h

lemma clear_matching_no_match (c : Nat) :
    ∀ {l : List conn_slot}, (∀ s ∈ l, s.conn ≠ some c) →
      clear_matching l c = l := by
  intro l
  induction l with
  | nil => intro _; rfl
  | cons x xs ih =>
    intro h
    rw [clear_matching, if_neg (h x (List.mem_cons_self x xs))]
    rw [ih (fun s hs => h s (List.mem_cons_of_mem _ hs))]

/-- C4 fails as stated: when the internal-disconnect flag is set, the
callback consumes the flag and returns at once — no HID notification,
no slot clearing, no advertising restart. -/
theorem C4_counterexample :
    (disconnected ⟨[⟨some 7, false⟩], false, true, true⟩ 7 0).2 = [] ∧
    (disconnected ⟨[⟨some 7, false⟩], false, true, true⟩ 7 0).1.conn_mode =
      [⟨some 7, false⟩] ∧
    (disconnected ⟨[⟨some 7, false⟩], false, true, true⟩ 7 0).1 =
      ⟨[⟨some 7, false⟩], false, false, true⟩ := by
  refine ⟨rfl, rfl, rfl⟩

/-- C4 (amended): whenever the internal-disconnect flag is clear, the
disconnect callback notifies the HID collaborator, clears every slot
whose handle matches (leaving the table unchanged — without crashing —
when none matches), marks the link down, and unconditionally requests an
advertising restart; when the flag is set it only consumes the flag. -/
theorem C4_disconnected (st : ble_state) (c : Nat) (adv_err : Int)
    (hflag : st.is_internal_ble_disconnect = false) :
    (disconnected st c adv_err).2 =
      [BleEffect.hid_disconnect c, BleEffect.adv_start_req] ∧
    (disconnected st c adv_err).1.conn_mode = clear_matching st.conn_mode c ∧
    (∀ s ∈ (disconnected st c adv_err).1.conn_mode, s.conn ≠ some c) ∧
    ((∀ s ∈ st.conn_mode, s.conn ≠ some c) →
      (disconnected st c adv_err).1.conn_mode = st.conn_mode) ∧
    (disconnected st c adv_err).1.isBle_connected = false := by
  have hmode : (disconnected st c adv_err).1.conn_mode =
      clear_matching st.conn_mode c := by
    by_cases ha : adv_err ≠ 0 <;>
      simp [disconnected, advertising_start, hflag, ha]
  refine ⟨?_, hmode, ?_, ?_, ?_⟩
  · by_cases ha : adv_err ≠ 0 <;>
      simp [disconnected, advertising_start, hflag, ha]
  · rw [hmode]
    exact clear_matching_clears c st.conn_mode
  · intro h
    rw [hmode]
    exact clear_matching_no_match c h
  · by_cases ha : adv_err ≠ 0 <;>
      simp [disconnected, advertising_start, hflag, ha]

/-- Witness for C4 at a concrete state. -/
theorem C4_disconnected_witness :
    ((⟨[⟨some 7, false⟩, ⟨none, false⟩], true, false, true⟩ :
        ble_state).is_internal_ble_disconnect = false) ∧
    (disconnected ⟨[⟨some 7, false⟩, ⟨none, false⟩], true, false, true⟩ 7 0).2 =
      [BleEffect.hid_disconnect 7, BleEffect.adv_start_req] :=
  ⟨rfl, (C4_disconnected ⟨[⟨some 7, false⟩, ⟨none, false⟩], true, false, true⟩
    7 0 rfl).1⟩

end AppBle

namespace AppBle

lemma assign_first_empty_eq_set (c : Nat) :
    ∀ {l : List conn_slot}, l.any (fun s => s.conn.isNone) = true →
      assign_first_empty l c =
        l.set (l.findIdx (fun s => s.conn.isNone)) ⟨some c, false⟩ := by
  intro l
  induction l with
  | nil => intro h; simp at h
  | cons x xs ih =>
    intro h
    by_cases hx : x.conn = none
    · rw [assign_first_empty, if_pos hx]
      have hpx : (fun (s : conn_slot) => s.conn.isNone) x = true := by
        simp [hx]
      simp [List.findIdx_cons, hpx]
    · rw [assign_first_empty, if_neg hx]
      have hpx : (fun (s : conn_slot) => s.conn.isNone) x = false := by
        cases hc : x.conn with
        | none => exact absurd hc hx
        | some v => simp [hc]
      have hxs : xs.any (fun s => s.conn.isNone) = true := by
        rcases List.any_eq_true.mp h with ⟨s, hs, hps⟩
        rcases List.mem_cons.mp hs with hsx | hsx
        · rw [hsx] at hps
          exact absurd (Option.isNone_iff_eq_none.mp hps) hx
        · exact List.any_eq_true.mpr ⟨s, hsx, hps⟩
      simp [List.findIdx_cons, hpx, ih hxs]

/-- C7 fails as stated: on a successful (err = 0) connect callback with
an empty slot available, a failing `connect_bt_hid` notification makes
the callback return early — no slot is assigned and advertising is
untouched. -/
theorem C7_counterexample :
    (connected ⟨[⟨none, false⟩], true, false, false⟩ 2 0 (-5) 0).1 =
      ⟨[⟨none, false⟩], true, false, false⟩ ∧
    ∀ s ∈ (connected ⟨[⟨none, false⟩], true, false, false⟩
        2 0 (-5) 0).1.conn_mode, s.conn ≠ some 2 := by
  refine ⟨rfl, ?_⟩
  decide

/-- C7 (amended): on a connect callback with err = 0 and an empty slot
available, if the HID-collaborator notification fails the callback
changes nothing (having only attempted the notification); if it
succeeds, the handle is assigned to the first empty slot with
`in_boot_mode = false`, and if the table is then full the advertising
flag is cleared, otherwise an advertising restart is requested (setting
the flag when `bt_le_adv_start` succeeds, leaving it unchanged
otherwise). -/
theorem C7_connected (st : ble_state) (c : Nat) (hid_err adv_err : Int)
    (hempty : st.conn_mode.any (fun s => s.conn.isNone) = true) :
    (hid_err ≠ 0 →
      (connected st c 0 hid_err adv_err).1 = st ∧
      (connected st c 0 hid_err adv_err).2 = [BleEffect.hid_connect c]) ∧
    (hid_err = 0 →
      (connected st c 0 hid_err adv_err).1.conn_mode =
        st.conn_mode.set (st.conn_mode.findIdx (fun s => s.conn.isNone))
          ⟨some c, false⟩ ∧
      BleEffect.hid_connect c ∈ (connected st c 0 hid_err adv_err).2 ∧
      ((assign_first_empty st.conn_mode c).any (fun s => s.conn.isNone) = false →
        (connected st c 0 hid_err adv_err).1.is_adv = false) ∧
      ((assign_first_empty st.conn_mode c).any (fun s => s.conn.isNone) = true →
        BleEffect.adv_start_req ∈ (connected st c 0 hid_err adv_err).2 ∧
        (adv_err = 0 → (connected st c 0 hid_err adv_err).1.is_adv = true) ∧
        (adv_err ≠ 0 →
          (connected st c 0 hid_err adv_err).1.is_adv = st.is_adv))) := by
  constructor
  · intro hh
    constructor <;> simp [connected, hh]
  · intro hh
    subst hh
    refine ⟨?_, ?_, ?_, ?_⟩
    · rw [← assign_first_empty_eq_set c hempty]
      by_cases hfull : (assign_first_empty st.conn_mode c).any
          (fun s => s.conn.isNone) = true
      · by_cases ha : adv_err ≠ 0 <;>
          simp [connected, advertising_start, hfull, ha]
      · simp [connected, advertising_start, hfull]
    · by_cases hfull : (assign_first_empty st.conn_mode c).any
        (fun s => s.conn.isNone) = true
      · by_cases ha : adv_err ≠ 0 <;>
          simp [connected, advertising_start, hfull, ha]
      · simp [connected, advertising_start, hfull]
    · intro hfull
      simp [connected, advertising_start, hfull]
    · intro hfull
      refine ⟨?_, ?_, ?_⟩
      · by_cases ha : adv_err ≠ 0 <;>
          simp [connected, advertising_start, hfull, ha]
      · intro ha
        simp [connected, advertising_start, hfull, ha]
      · intro ha
        simp [connected, advertising_start, hfull, ha]

/-- Witness for C7: a second client joins a two-slot table whose slot 1
is free and the HID notification succeeds, assigning slot 1; with the
notification failing instead, the same state is left unchanged. -/
theorem C7_connected_witness :
    (([⟨some 1, false⟩, ⟨none, true⟩] : List conn_slot).any
        (fun s => s.conn.isNone) = true) ∧
    (connected ⟨[⟨some 1, false⟩, ⟨none, true⟩], true, false, false⟩
        2 0 0 0).1.conn_mode =
      ([⟨some 1, false⟩, ⟨none, true⟩] : List conn_slot).set
        (([⟨some 1, false⟩, ⟨none, true⟩] : List conn_slot).findIdx
          (fun s => s.conn.isNone)) ⟨some 2, false⟩ ∧
    (connected ⟨[⟨some 1, false⟩, ⟨none, true⟩], true, false, false⟩
        2 0 (-5) 0).1 =
      ⟨[⟨some 1, false⟩, ⟨none, true⟩], true, false, false⟩ :=
  ⟨by decide,
    ((C7_connected ⟨[⟨some 1, false⟩, ⟨none, true⟩], true, false, false⟩
      2 0 0 (by decide)).2 rfl).1,
    ((C7_connected ⟨[⟨some 1, false⟩, ⟨none, true⟩], true, false, false⟩
      2 (-5) 0 (by decide)).1 (by decide)).1⟩

end AppBle

namespace AppBle

lemma map_clear_all (l : List conn_slot) :
    ∀ s ∈ l.map (fun (s : conn_slot) =>
      if s.conn.isSome then { conn := none, in_boot_mode := false } else s),
      s.conn = none := by
  intro s hs
  rcases List.mem_map.mp hs with ⟨t, _, rfl⟩
  by_cases ht : t.conn.isSome = true
  · simp [ht]
  · have : t.conn = none := Option.not_isSome_iff_eq_none.mp ht
    simp [ht, this]

lemma map_clear_id {l : List conn_slot} (h : ∀ s ∈ l, s.conn = none) :
    l.map (fun (s : conn_slot) =>
      if s.conn.isSome then { conn := none, in_boot_mode := false } else s)
      = l := by
  induction l with
  | nil => rfl
  | cons x xs ih =>
    have hx : x.conn = none := h x (List.mem_cons_self x xs)
    rw [List.map_cons, ih (fun s hs => h s (List.mem_cons_of_mem _ hs))]
    simp [hx]

lemma foldr_disc_none {l : List conn_slot} (h : ∀ s ∈ l, s.conn = none) :
    l.foldr (fun (s : conn_slot) (acc : List BleEffect) =>
      match s.conn with
      | some c => .hid_disconnect c :: .conn_disconnect c :: acc
      | none => acc) [] = [] := by
  induction l with
  | nil => rfl
  | cons x xs ih =>
    have hx : x.conn = none := h x (List.mem_cons_self x xs)
    rw [List.foldr_cons, ih (fun s hs => h s (List.mem_cons_of_mem _ hs))]
    simp [hx]

lemma foldr_unref_none {l : List conn_slot} (h : ∀ s ∈ l, s.conn = none) :
    l.foldr (fun (s : conn_slot) (acc : List BleEffect) =>
      match s.conn with
      | some c => .conn_unref c :: acc
      | none => acc) [] = [] := by
  induction l with
  | nil => rfl
  | cons x xs ih =>
    have hx : x.conn = none := h x (List.mem_cons_self x xs)
    rw [List.foldr_cons, ih (fun s hs => h s (List.mem_cons_of_mem _ hs))]
    simp [hx]

lemma ble_disconnect_safe_state (st : ble_state) :
    (ble_disconnect_safe st).1 =
      { conn_mode := st.conn_mode.map (fun (s : conn_slot) =>
          if s.conn.isSome then { conn := none, in_boot_mode := false } else s),
        is_adv := false,
        is_internal_ble_disconnect := true,
        isBle_connected := st.isBle_connected } := by
  cases st with
  | mk cm ia ii ib =>
    by_cases hA : ia <;> simp [ble_disconnect_safe, hA]

lemma ble_disconnect_safe_effs (st : ble_state) :
    (ble_disconnect_safe st).2.1 =
      (st.conn_mode.foldr (fun (s : conn_slot) (acc : List BleEffect) =>
        match s.conn with
        | some c => .hid_disconnect c :: .conn_disconnect c :: acc
        | none => acc) []) ++ [.sleep_ms 100] ++
      (st.conn_mode.foldr (fun (s : conn_slot) (acc : List BleEffect) =>
        match s.conn with
        | some c => .conn_unref c :: acc
        | none => acc) []) ++
      (if st.is_adv then [BleEffect.adv_stop_req] else []) ++
      [.sleep_ms 20] := by
  cases st with
  | mk cm ia ii ib =>
    by_cases hA : ia <;> simp [ble_disconnect_safe, hA]

/-- C8 fails in one respect: on an empty table with the advertising flag
already clear (the state at boot before advertising starts), no
`bt_le_adv_stop` request is issued — the stop is attempted only when the
flag is set. -/
theorem C8_counterexample :
    BleEffect.adv_stop_req ∉
      (ble_disconnect_safe ⟨[⟨none, false⟩], false, false, false⟩).2.1 ∧
    (ble_disconnect_safe ⟨[⟨none, false⟩], false, false, false⟩).2.2 = 0 := by
  refine ⟨?_, rfl⟩
  decide

/-- C8 (amended): `ble_disconnect_safe` always returns 0; afterwards
every slot is empty and the advertising flag is false; an already-empty
table is left unchanged; a `bt_le_adv_stop` request is issued whenever
the advertising flag was set (and only then); and an immediate second
call is a no-op: same state, no collaborator calls besides the two
fixed sleeps. -/
theorem C8_disconnect_safe (st : ble_state) :
    (ble_disconnect_safe st).2.2 = 0 ∧
    (∀ s ∈ (ble_disconnect_safe st).1.conn_mode, s.conn = none) ∧
    (ble_disconnect_safe st).1.is_adv = false ∧
    ((∀ s ∈ st.conn_mode, s.conn = none) →
      (ble_disconnect_safe st).1.conn_mode = st.conn_mode) ∧
    (st.is_adv = true →
      BleEffect.adv_stop_req ∈ (ble_disconnect_safe st).2.1) ∧
    (ble_disconnect_safe (ble_disconnect_safe st).1).1 =
      (ble_disconnect_safe st).1 ∧
    (ble_disconnect_safe (ble_disconnect_safe st).1).2.1 =
      [BleEffect.sleep_ms 100, BleEffect.sleep_ms 20] := by
  have hclear : ∀ s ∈ (ble_disconnect_safe st).1.conn_mode, s.conn = none := by
    rw [ble_disconnect_safe_state]
    exact map_clear_all st.conn_mode
  refine ⟨rfl, hclear, ?_, ?_, ?_, ?_, ?_⟩
  · rw [ble_disconnect_safe_state]
  · intro h
    rw [ble_disconnect_safe_state]
    exact map_clear_id h
  · intro hA
    rw [ble_disconnect_safe_effs]
    simp [hA]
  · rw [ble_disconnect_safe_state (ble_disconnect_safe st).1,
      map_clear_id hclear, ble_disconnect_safe_state st]
  · rw [ble_disconnect_safe_effs (ble_disconnect_safe st).1,
      foldr_disc_none hclear, foldr_unref_none hclear]
    have hA : (ble_disconnect_safe st).1.is_adv = false := by
      rw [ble_disconnect_safe_state]
    simp [hA]

/-- Witness for C8 at a concrete state with one live connection and
advertising running. -/
theorem C8_disconnect_safe_witness :
    (ble_disconnect_safe ⟨[⟨some 3, false⟩, ⟨none, false⟩], true, false,
        true⟩).2.2 = 0 ∧
    (∀ s ∈ (ble_disconnect_safe ⟨[⟨some 3, false⟩, ⟨none, false⟩], true,
        false, true⟩).1.conn_mode, s.conn = none) :=
  ⟨(C8_disconnect_safe ⟨[⟨some 3, false⟩, ⟨none, false⟩], true, false,
      true⟩).1,
    (C8_disconnect_safe ⟨[⟨some 3, false⟩, ⟨none, false⟩], true, false,
      true⟩).2.1⟩

end AppBle

namespace AppSleep

/-- The externally visible steps taken on the idle-timeout path of
app_sleep.c, in program order. -/
inductive SleepStep where
  | submit_idle_work
  | imu_power_down
  | ble_disconnect_all
  | sleep_ms (n : Nat)
  | system_off
  deriving Repr, DecidableEq

/-- `idle_timeout` from app_sleep.c: the timer callback only submits
`idle_work`, deferring the teardown to the work-queue context. -/
def idle_timeout : List SleepStep := [.submit_idle_work]

/-- `idle_work_fn` from app_sleep.c: the deferred teardown.
`imu_present` is the CONFIG_IMU_LSM6DSO compile switch; `imu_ret` and
`disc_ret` are the results of the IMU power-down and of
`ble_disconnect_safe`, both discarded by the code (no step aborts the
sequence). -/
def idle_work_fn (imu_present : Bool) (_imu_ret _disc_ret : Int) :
    List SleepStep :=
  (if imu_present then [.imu_power_down] else []) ++
  [.ble_disconnect_all, .sleep_ms 3000, .system_off]

/-- C9: the timer callback defers all teardown work (it only submits the
work item and performs no teardown step itself); the deferred task runs
IMU power-down (when the IMU is compiled in), then
`ble_disconnect_safe`, then a 3000 ms grace sleep, then system-off, in
that exact order; the trace does not depend on any step's result (no
failure aborts the sequence); and system-off is the last step, after
which no further step occurs. -/
theorem C9_idle_teardown (imu_present : Bool) (r1 r2 r1' r2' : Int) :
    idle_timeout = [SleepStep.submit_idle_work] ∧
    SleepStep.system_off ∉ idle_timeout ∧
    SleepStep.ble_disconnect_all ∉ idle_timeout ∧
    idle_work_fn true r1 r2 =
      [SleepStep.imu_power_down, SleepStep.ble_disconnect_all,
       SleepStep.sleep_ms 3000, SleepStep.system_off] ∧
    idle_work_fn false r1 r2 =
      [SleepStep.ble_disconnect_all, SleepStep.sleep_ms 3000,
       SleepStep.system_off] ∧
    idle_work_fn imu_present r1 r2 = idle_work_fn imu_present r1' r2' ∧
    (idle_work_fn imu_present r1 r2).getLast? = some SleepStep.system_off := by
  refine ⟨rfl, by decide, by decide, rfl, rfl, rfl, ?_⟩
  cases imu_present <;> rfl

end AppSleep

namespace AppButton

/-- Result of `read_latch_register` from app_button.c: the `int` return
value, the `LATCH_RESET_BUTTON` flag afterwards, and the value written
back to `NRF_P0->LATCH` (`none` when the register is not written). -/
structure latch_result where
  ret : Int
  latch_reset_button : Bool
  write_back : Option Nat
  deriving Repr, DecidableEq

/-- `read_latch_register` from app_button.c.  `pin` is USER_BUTTON_PIN
(a device-tree constant), `flag0` the prior value of the
`LATCH_RESET_BUTTON` flag, and `lat` the snapshot read from
`NRF_P0->LATCH`.  `BIT(pin)` is `1 <<< pin`. -/
def read_latch_register (pin : Nat) (flag0 : Bool) (lat : Nat) :
    latch_result :=
  if lat ≠ 0 then
    { ret := 0,
      latch_reset_button :=
        if lat &&& (1 <<< pin) ≠ 0 then true else flag0,
      write_back := some lat }
  else
    { ret := 0, latch_reset_button := flag0, write_back := none }

/-- Write-1-to-clear semantics of the 32-bit LATCH register: writing `w`
clears exactly the set bits of `w` and leaves all other bits alone. -/
def latch_w1c (cur w : Nat) : Nat := cur &&& ((2 ^ 32 - 1) ^^^ w)

lemma testBit_mask_pow_sub_one (n w j : Nat) :
    ((2 ^ n - 1) ^^^ w).testBit j = (decide (j < n) ^^ w.testBit j) := by
  rw [Nat.testBit_xor, Nat.testBit_two_pow_sub_one]

lemma testBit_high_false {c n j : Nat} (hc : c < 2 ^ n) (hj : ¬ j < n) :
    c.testBit j = false := by
  apply Nat.testBit_lt_two_pow
  exact lt_of_lt_of_le hc (Nat.pow_le_pow_right (by norm_num) (le_of_not_lt hj))

lemma latch_w1c_or {lat extra : Nat} (hlat : lat < 2 ^ 32)
    (hextra : extra < 2 ^ 32) (hdisj : extra &&& lat = 0) :
    latch_w1c (lat ||| extra) lat = extra := by
  apply Nat.eq_of_testBit_eq
  intro j
  have hd : extra.testBit j = true → lat.testBit j = false := by
    have h2 := congrArg (fun n => Nat.testBit n j) hdisj
    simpa [Nat.testBit_and] using h2
  unfold latch_w1c
  rw [Nat.testBit_and, Nat.testBit_or, testBit_mask_pow_sub_one]
  by_cases hj : j < 32
  · cases hl : lat.testBit j with
    | true =>
      have he : extra.testBit j = false := by
        cases hx : extra.testBit j with
        | false => rfl
        | true => simp [hx, hl] at hd
      simp [hl, he, hj]
    | false => simp [hl, hj]
  · simp [testBit_high_false hlat hj, testBit_high_false hextra hj, hj]

/-- C10: the wake-latch reader always returns 0; when the snapshot is
nonzero and contains the wake-button bit it sets the one-shot
`LATCH_RESET_BUTTON` flag; when nonzero it writes back exactly the bits
read, so — under write-1-to-clear semantics — latch bits set by other
pins between the read and the write survive; when the snapshot is zero
it performs no write at all. -/
theorem C10_read_latch (pin : Nat) (flag0 : Bool) (lat extra : Nat)
    (hlat : lat < 2 ^ 32) (hextra : extra < 2 ^ 32)
    (hdisj : extra &&& lat = 0) :
    (read_latch_register pin flag0 lat).ret = 0 ∧
    (lat &&& (1 <<< pin) ≠ 0 →
      (read_latch_register pin flag0 lat).latch_reset_button = true) ∧
    (lat ≠ 0 →
      (read_latch_register pin flag0 lat).write_back = some lat ∧
      latch_w1c (lat ||| extra) lat = extra) ∧
    (lat = 0 → (read_latch_register pin flag0 lat).write_back = none) := by
  refine ⟨?_, ?_, ?_, ?_⟩
  · by_cases h0 : lat ≠ 0 <;> simp [read_latch_register, h0]
  · intro hbit
    have h0 : lat ≠ 0 := by
      intro h
      rw [h] at hbit
      exact hbit (Nat.zero_and _)
    simp [read_latch_register, h0, hbit]
  · intro h0
    exact ⟨by simp [read_latch_register, h0],
      latch_w1c_or hlat hextra hdisj⟩
  · intro h0
    simp [read_latch_register, h0]

/-- Witness for C10: snapshot 5 (bits 0 and 2) with wake pin 2, while
bit 3 is set by another pin after the read. -/
theorem C10_read_latch_witness :
    ((5 : Nat) < 2 ^ 32 ∧ (8 : Nat) < 2 ^ 32 ∧ (8 : Nat) &&& 5 = 0) ∧
    ((5 : Nat) ≠ 0 →
      (read_latch_register 2 false 5).write_back = some 5 ∧
      latch_w1c (5 ||| 8) 5 = 8) :=
  ⟨⟨by norm_num, by norm_num, by decide⟩,
    (C10_read_latch 2 false 5 8 (by norm_num) (by norm_num) (by decide)).2.2.1⟩

end AppButton
